import Mathlib

/-!
Verification of the rhythm-game judgment and progression engine
(`src/rhythmGame.py`) against its natural-language specification.

The embedding is shallow: each Python class/method used by the claims is
translated into a Lean definition over `ℚ` (Python floats are modelled as
exact rationals; `int(...)` truncation is modelled by `pyInt`).  Rendering,
CSV writing and pygame event decoding are I/O and are outside the model;
the in-memory state they read is embedded faithfully.
-/

namespace RhythmGame

/-! ## Constants (module-level constants of the source) -/

def WINDOW_WIDTH : ℚ := 800
def WINDOW_HEIGHT : ℚ := 600
def NOTE_WIDTH : ℚ := 80
def NOTE_HEIGHT : ℚ := 40
/-- `HIT_LINE_Y = WINDOW_HEIGHT - 100`. -/
def HIT_LINE_Y : ℚ := WINDOW_HEIGHT - 100
/-- `len(KEYS)`: the source has `KEYS = ['D', 'F', 'J', 'K']`, four lanes.
Lanes are the indices `KEYS.index(key)`, hence `Fin 4` throughout. -/
def LANE_COUNT : Nat := 4
def GAME_DURATION : ℚ := 70
def LEVELS : Nat := 5
def BASIC_SPEED : ℚ := 2
def BLOCK_SPEED_ACCR : ℚ := 0
def LEVEL_SPEED_ACCR : ℚ := 3.5

/-- Python `int(x)` on a (rational-modelled) float: truncation toward zero. -/
def pyInt (q : ℚ) : Int := Int.tdiv q.num q.den

/-- Python truthiness of an optional float: `None` and `0.0` are falsy. -/
def truthy : Option ℚ → Bool
  | none => false
  | some x => x != 0

/-- Python `round(x, 2)`, modelled with round-half-up (Python uses
banker's rounding; the two differ only at exact third-decimal halves,
which no claim exercises). -/
def round2 (q : ℚ) : ℚ := ((round (q * 100) : ℤ) : ℚ) / 100

/-! ## Note (the falling marker) -/

inductive NoteState
  | active
  | hit
  | missed
deriving DecidableEq, Repr

structure Note where
  lane : Fin 4
  x : ℚ
  y : ℚ
  speed : ℚ
  state : NoteState
  hit_time : Option ℚ
  start_hit_time : Option ℚ
  miss_time : Option ℚ
deriving DecidableEq, Repr

/-- `Note.__init__(lane, speed, y=0)`:
`x = (WINDOW_WIDTH // len(KEYS)) * lane + (WINDOW_WIDTH // len(KEYS) - NOTE_WIDTH) // 2`. -/
def mkNote (lane : Fin 4) (speed : ℚ) (y : ℚ) : Note :=
  { lane := lane
    x := (WINDOW_WIDTH / 4) * ((lane : Nat) : ℚ) + (WINDOW_WIDTH / 4 - NOTE_WIDTH) / 2
    y := y
    speed := speed
    state := .active
    hit_time := none
    start_hit_time := none
    miss_time := none }

/-! ## DataCollector -/

/-- The `hit_status` strings passed to `record_hit` form a closed set. -/
inductive HitStatus
  | hit
  | miss
  | incorrect
  | duplicated
deriving DecidableEq, Repr

/-- One row of `session_data` (the dict built in `record_hit`). -/
structure JudgmentEvent where
  timestamp : Int
  level : Nat
  lane : Fin 4
  hit_status : HitStatus
  reaction_time : Option Int
  reaction_distance : Option Int
  speed : ℚ
deriving DecidableEq, Repr

/-- The in-memory state of `DataCollector` (the CSV mirror is I/O). -/
structure DataCollector where
  session_data : List JudgmentEvent
  start_time : ℚ
  level : Nat
deriving DecidableEq, Repr

/-- `record_hit`: `reaction_time = hit_time - start_hit_time` when both are
truthy, else `None`. -/
def computedReactionTime (note : Note) : Option ℚ :=
  if truthy note.hit_time && truthy note.start_hit_time then
    some (note.hit_time.getD 0 - note.start_hit_time.getD 0)
  else none

/-- `record_hit`: `reaction_distance = abs(note.y - HIT_LINE_Y)` when
`hit_time` is truthy, else `None`. -/
def computedReactionDistance (note : Note) : Option ℚ :=
  if truthy note.hit_time then some |note.y - HIT_LINE_Y| else none

/-- The dict appended to `session_data` by `record_hit`.  Note the source
stores `int(reaction_time * 1000) if reaction_time else None` — a
truthiness test, so a computed value of exactly 0 is stored as `None`;
likewise for `reaction_distance`. -/
def mkEvent (dc : DataCollector) (note : Note) (level : Nat)
    (hit_status : HitStatus) (now : ℚ) : JudgmentEvent :=
  let timestamp := now - dc.start_time
  let reaction_time := computedReactionTime note
  let reaction_distance := computedReactionDistance note
  { timestamp := pyInt (timestamp * 1000)
    level := level
    lane := note.lane
    hit_status := hit_status
    reaction_time :=
      if truthy reaction_time then some (pyInt (reaction_time.getD 0 * 1000)) else none
    reaction_distance :=
      if truthy reaction_distance then some (pyInt (reaction_distance.getD 0)) else none
    speed := round2 note.speed }

/-- `DataCollector.record_hit` (`now` is the wall clock `time.time()`). -/
def record_hit (dc : DataCollector) (note : Note) (level : Nat)
    (hit_status : HitStatus) (now : ℚ) : DataCollector :=
  { dc with session_data := dc.session_data ++ [mkEvent dc note level hit_status now] }

/-! ## DifficultyManager -/

structure Level where
  speed : ℚ
  acceleration : ℚ
deriving DecidableEq, Repr

structure DifficultyManager where
  levels : List Level
  current_level : Nat
  current_speed : ℚ
  current_acceleration : ℚ
deriving DecidableEq, Repr

/-- `DifficultyManager.__init__`: empty level list, level 1, speed 2.0,
acceleration 0.0. -/
def DifficultyManager.initial : DifficultyManager :=
  { levels := [], current_level := 1, current_speed := 2, current_acceleration := 0 }

/-- `DifficultyManager.set_levels`: plain assignment, no validation. -/
def set_levels (dm : DifficultyManager) (levels : List Level) : DifficultyManager :=
  { dm with levels := levels }

/-- `DifficultyManager.set_level`.  The `Except` models Python's
raise-or-return: the source raises nothing on the out-of-range path (its
`else` branch is `pass`, leaving the previous speed and acceleration); the
`.error` arm models the `IndexError` a bad list index would raise, which
for `level ≥ 1` is unreachable because of the length guard. -/
def set_level (dm : DifficultyManager) (level : Nat) : Except String DifficultyManager :=
  let dm' := { dm with current_level := level }
  if level ≤ dm'.levels.length then
    match dm'.levels.get? (level - 1) with
    | some lv => .ok { dm' with current_speed := lv.speed, current_acceleration := lv.acceleration }
    | none => .error "IndexError"
  else
    .ok dm'

/-- The level list built in `Game.init_game`:
`speed = BASIC_SPEED + i * LEVEL_SPEED_ACCR`, acceleration `BLOCK_SPEED_ACCR`.
In `normal` mode this list is used as-is; in `test` mode it is shuffled (a
permutation); for any other mode the source replaces it by `[]`. -/
def initLevels : List Level :=
  (List.range LEVELS).map fun i =>
    { speed := BASIC_SPEED + (i : ℚ) * LEVEL_SPEED_ACCR, acceleration := BLOCK_SPEED_ACCR }

/-- The difficulty-setup part of `Game.init_game`: a fresh manager, then
`set_levels(levels)`, then `set_level(1)`.  The source performs no
validation of `levels` anywhere on this path. -/
def init_difficulty (levels : List Level) : Except String DifficultyManager :=
  set_level (set_levels DifficultyManager.initial levels) 1

/-! ## Game state and `handle_note_hit` -/

/-- The mutable fields of `Game` that the judgment path touches. -/
structure GameState where
  notes : List Note
  combo : Nat
  hits : Nat
  incorrect_hits : Nat
  total_notes : Nat
  current_level : Nat
  /-- `difficulty_manager.current_speed`, read for the dummy note. -/
  current_speed : ℚ
  collector : DataCollector
  hit_line_flash_timer : ℚ
deriving DecidableEq, Repr

/-- The scan loop of `Game.handle_note_hit`, including its nesting exactly
as written: the `elif note.state == 'hit'` branch sits under the
`note.state == 'active'` test, so it is unreachable dead code.  Returns the
surviving note list, the note that was hit (post-mutation, already removed
from the list), and the note a duplicate was recorded against. -/
def hitScan (lane : Fin 4) (now : ℚ) : List Note → List Note × Option Note × Option Note
  | [] => ([], none, none)
  | n :: rest =>
    if n.lane = lane ∧ n.state = .active then
      if HIT_LINE_Y - NOTE_HEIGHT ≤ n.y ∧ n.y ≤ HIT_LINE_Y then
        -- can be hit: mutate, record, remove, break
        (rest, some { n with state := .hit, hit_time := some now }, none)
      else if n.state = .hit then
        -- "Duplicate hit" branch of the source: dead, see above
        (n :: rest, none, some n)
      else
        let r := hitScan lane now rest
        (n :: r.1, r.2.1, r.2.2)
    else
      let r := hitScan lane now rest
      (n :: r.1, r.2.1, r.2.2)

/-- `Game.handle_note_hit(key)` with `lane = KEYS.index(key)` and `now` the
wall clock. -/
def handle_note_hit (g : GameState) (lane : Fin 4) (now : ℚ) : GameState :=
  match hitScan lane now g.notes with
  | (notes', some hn, _) =>
    { g with
      notes := notes'
      combo := g.combo + 1
      hits := g.hits + 1
      total_notes := g.total_notes + 1
      collector := record_hit g.collector hn g.current_level .hit now }
  | (notes', none, some dn) =>
    { g with
      notes := notes'
      collector := record_hit g.collector dn g.current_level .duplicated now }
  | (notes', none, none) =>
    -- incorrect key press: synthetic note at the judgment line
    let dummy := { mkNote lane g.current_speed HIT_LINE_Y with hit_time := some now }
    { g with
      notes := notes'
      combo := 0
      incorrect_hits := g.incorrect_hits + 1
      collector := record_hit g.collector dummy g.current_level .incorrect now
      hit_line_flash_timer := 0.2 }

/-- A marker that a press in `lane` can resolve as a hit: in that lane,
`Active`, and inside the judgment window. -/
def eligible (lane : Fin 4) (n : Note) : Prop :=
  n.lane = lane ∧ n.state = .active ∧ HIT_LINE_Y - NOTE_HEIGHT ≤ n.y ∧ n.y ≤ HIT_LINE_Y

instance (lane : Fin 4) (n : Note) : Decidable (eligible lane n) := by
  unfold eligible; infer_instance

/-! ## The per-tick marker update of `Game.update` -/

/-- The position/`start_hit_time` advance applied to an `Active` note each
tick: `note.y += note.speed`, then `start_hit_time` is set (once) when the
note enters the judgment window. -/
def advance (now : ℚ) (n : Note) : Note :=
  let n1 := { n with y := n.y + n.speed }
  if n1.start_hit_time = none ∧ n1.y ≥ HIT_LINE_Y - NOTE_HEIGHT then
    { n1 with start_hit_time := some now }
  else n1

structure TickResult where
  notes : List Note
  combo : Nat
  total_notes : Nat
  collector : DataCollector
deriving DecidableEq, Repr

/-- The `for note in self.note_generator.notes[:]` loop of `Game.update`
(lines 560–579): advance active notes, transition to `missed` when the
post-advance position exceeds the judgment line (resetting the combo,
recording a `miss`), and prune `missed` notes 0.5 s after resolution. -/
def tickNotes (now : ℚ) (level : Nat) :
    List Note → Nat → Nat → DataCollector → TickResult
  | [], combo, total, dc => ⟨[], combo, total, dc⟩
  | n :: rest, combo, total, dc =>
    if n.state = .active then
      let n2 := advance now n
      if n2.y > HIT_LINE_Y ∧ n2.state = .active then
        let n3 := { n2 with state := .missed, miss_time := some now }
        let r := tickNotes now level rest 0 (total + 1) (record_hit dc n3 level .miss now)
        ⟨n3 :: r.notes, r.combo, r.total_notes, r.collector⟩
      else
        let r := tickNotes now level rest combo total dc
        ⟨n2 :: r.notes, r.combo, r.total_notes, r.collector⟩
    else if n.state = .missed then
      match n.miss_time with
      | some mt =>
        if now - mt > 0.5 then
          -- removed from the active set
          tickNotes now level rest combo total dc
        else
          let r := tickNotes now level rest combo total dc
          ⟨n :: r.notes, r.combo, r.total_notes, r.collector⟩
      | none =>
        -- unreachable: the missed transition always sets `miss_time`
        let r := tickNotes now level rest combo total dc
        ⟨n :: r.notes, r.combo, r.total_notes, r.collector⟩
    else
      let r := tickNotes now level rest combo total dc
      ⟨n :: r.notes, r.combo, r.total_notes, r.collector⟩

/-! ## SessionClock (elapsed-time accounting of `Game`) -/

/-- The clock fields of `Game`: `start_time`, `total_paused_time`,
`pause_start_time`, `current_time`. -/
structure SessionClock where
  start_time : ℚ
  total_paused_time : ℚ
  pause_start_time : Option ℚ
  current_time : ℚ
deriving DecidableEq, Repr

/-- The clock-relevant events, each carrying its wall-clock time: a
non-menu tick of `Game.update`, and a SPACE press (pause toggle) in
`Game.handle_input`. -/
inductive ClockEvent
  | tick (w : ℚ)
  | toggle (w : ℚ)
deriving DecidableEq, Repr

def ClockEvent.time : ClockEvent → ℚ
  | .tick w => w
  | .toggle w => w

/-- `Game.init_game`: `start_time = time.time()`, `total_paused_time = 0`,
`pause_start_time = None`, `current_time = 0`. -/
def clockInit (w0 : ℚ) : SessionClock :=
  { start_time := w0, total_paused_time := 0, pause_start_time := none, current_time := 0 }

/-- One clock event.  A tick while paused does nothing (`Game.update`
returns without touching `current_time`); a tick while running sets
`current_time = now - start_time - total_paused_time`.  A SPACE press
toggles: entering pause records `pause_start_time`; leaving pause adds the
paused duration to `total_paused_time`. -/
def clockStep (s : SessionClock) : ClockEvent → SessionClock
  | .tick w =>
    match s.pause_start_time with
    | none => { s with current_time := w - s.start_time - s.total_paused_time }
    | some _ => s
  | .toggle w =>
    match s.pause_start_time with
    | none => { s with pause_start_time := some w }
    | some p =>
      { s with total_paused_time := s.total_paused_time + (w - p), pause_start_time := none }

def clockRun (s : SessionClock) : List ClockEvent → SessionClock
  | [] => s
  | e :: es => clockRun (clockStep s e) es

/-- Well-formed event trace: wall-clock times are non-decreasing, starting
no earlier than the reference time. -/
def wfTrace : ℚ → List ClockEvent → Prop
  | _, [] => True
  | t, e :: es => t ≤ e.time ∧ wfTrace e.time es

/-! ## DataCollector.analyze_data -/

/-- The `reaction_times` list comprehension of `analyze_data`. -/
def reactionTimes (data : List JudgmentEvent) : List Int :=
  data.filterMap fun d => d.reaction_time

/-- The aggregate record appended to the analysis sink (per-lane dicts are
modelled as functions on `Fin 4`, the key range `range(len(KEYS))`). -/
structure Analysis where
  hit_rate : ℚ
  lane_hit_rates : Fin 4 → ℚ
  avg_reaction_time : ℚ
  avg_lane_reaction_times : Fin 4 → ℚ
  incorrect_hit_rate : ℚ
  lane_incorrect_hit_rates : Fin 4 → ℚ
  game_duration : ℚ
  exit_rate : Nat

/-- `DataCollector.analyze_data(total_time, exited)`: computes the
aggregates from `session_data` and clears the buffer. -/
def analyze_data (dc : DataCollector) (total_time : ℚ) (exited : Bool) :
    Analysis × DataCollector :=
  let data := dc.session_data
  let total_hits := data.countP fun d => decide (d.hit_status = .hit)
  let total_notes := data.countP fun d => decide (d.hit_status = .hit ∨ d.hit_status = .miss)
  let hit_rate : ℚ := if 0 < total_notes then (total_hits : ℚ) / (total_notes : ℚ) else 0
  let lane_hits : Fin 4 → Nat := fun lane =>
    data.countP fun d => decide (d.lane = lane ∧ d.hit_status = .hit)
  let lane_totals : Fin 4 → Nat := fun lane =>
    data.countP fun d => decide (d.lane = lane ∧ (d.hit_status = .hit ∨ d.hit_status = .miss))
  let lane_hit_rates : Fin 4 → ℚ := fun lane =>
    if 0 < lane_totals lane then (lane_hits lane : ℚ) / (lane_totals lane : ℚ) else 0
  let rts := reactionTimes data
  let avg_reaction_time : ℚ :=
    if 0 < rts.length then ((rts.sum : ℤ) : ℚ) / (rts.length : ℚ) else 0
  let lane_rts : Fin 4 → List Int := fun lane =>
    data.filterMap fun d => if d.lane = lane then d.reaction_time else none
  let avg_lane_reaction_times : Fin 4 → ℚ := fun lane =>
    if 0 < (lane_rts lane).length then
      (((lane_rts lane).sum : ℤ) : ℚ) / ((lane_rts lane).length : ℚ)
    else 0
  let total_incorrect := data.countP fun d => decide (d.hit_status = .incorrect)
  let total_effective := total_hits + total_incorrect
  let incorrect_hit_rate : ℚ :=
    if 0 < total_effective then (total_incorrect : ℚ) / (total_effective : ℚ) else 0
  let lane_incorrect : Fin 4 → Nat := fun lane =>
    data.countP fun d => decide (d.lane = lane ∧ d.hit_status = .incorrect)
  let lane_effective : Fin 4 → Nat := fun lane =>
    data.countP fun d =>
      decide (d.lane = lane ∧ (d.hit_status = .hit ∨ d.hit_status = .incorrect))
  let lane_incorrect_hit_rates : Fin 4 → ℚ := fun lane =>
    if 0 < lane_effective lane then (lane_incorrect lane : ℚ) / (lane_effective lane : ℚ) else 0
  (⟨hit_rate, lane_hit_rates, avg_reaction_time, avg_lane_reaction_times,
    incorrect_hit_rate, lane_incorrect_hit_rates, total_time, if exited then 1 else 0⟩,
   { dc with session_data := [] })

/-- `ts.foldl` of lane presses: the same lane pressed at the listed times. -/
def pressMany (g : GameState) (lane : Fin 4) (ts : List ℚ) : GameState :=
  ts.foldl (fun g t => handle_note_hit g lane t) g

/-! ## Concrete states used by scenario theorems and witnesses -/

def dcInit : DataCollector := ⟨[], 0, 1⟩

/-- Scenario A marker: lane 2, speed 2, `verticalPosition = 480`. -/
def note480 : Note := mkNote 2 2 480

def g0 : GameState :=
  { notes := [note480], combo := 0, hits := 0, incorrect_hits := 0, total_notes := 0,
    current_level := 1, current_speed := 2, collector := dcInit, hit_line_flash_timer := 0 }

def gEmpty : GameState := { g0 with notes := [] }

def noteMissed : Note := { note480 with state := .missed, miss_time := some 9 }

/-! ## Helper lemmas -/

/-- The scan loop never reports a duplicate: its "Duplicate hit" branch
tests `note.state == 'hit'` inside the `note.state == 'active'` branch. -/
theorem hitScan_dup_none (lane : Fin 4) (now : ℚ) (ns : List Note) :
    (hitScan lane now ns).2.2 = none := by
  induction ns with
  | nil => rfl
  | cons n rest ih =>
    simp only [hitScan]
    split
    · next h =>
      split
      · rfl
      · split
        · next hhit => simp [h.2] at hhit
        · simpa using ih
    · simpa using ih

/-- With no eligible marker in the lane, the scan is the identity. -/
theorem hitScan_no_eligible (lane : Fin 4) (now : ℚ) (ns : List Note)
    (h : ∀ n ∈ ns, ¬ eligible lane n) : hitScan lane now ns = (ns, none, none) := by
  induction ns with
  | nil => rfl
  | cons n rest ih =>
    have hn := h n (List.mem_cons_self n rest)
    have hrest := ih fun m hm => h m (List.mem_cons_of_mem n hm)
    simp only [hitScan]
    split
    · next hla =>
      split
      · next hw => exact absurd ⟨hla.1, hla.2, hw⟩ hn
      · split
        · next hhit => simp [hla.2] at hhit
        · simp [hrest]
    · simp [hrest]

/-- A press with no eligible marker takes exactly the incorrect branch. -/
theorem handle_no_eligible (g : GameState) (lane : Fin 4) (now : ℚ)
    (h : ∀ n ∈ g.notes, ¬ eligible lane n) :
    handle_note_hit g lane now =
      { g with
        combo := 0
        incorrect_hits := g.incorrect_hits + 1
        collector := record_hit g.collector
          { mkNote lane g.current_speed HIT_LINE_Y with hit_time := some now }
          g.current_level .incorrect now
        hit_line_flash_timer := 0.2 } := by
  unfold handle_note_hit
  rw [hitScan_no_eligible lane now g.notes h]

theorem advance_y (now : ℚ) (n : Note) : (advance now n).y = n.y + n.speed := by
  simp only [advance]
  split <;> rfl

theorem advance_state (now : ℚ) (n : Note) : (advance now n).state = n.state := by
  simp only [advance]
  split <;> rfl

/-- The scan on a single in-lane active note reduces to the window test. -/
theorem hitScan_single (lane : Fin 4) (now : ℚ) (n : Note)
    (hl : n.lane = lane) (ha : n.state = .active) :
    hitScan lane now [n] =
      if HIT_LINE_Y - NOTE_HEIGHT ≤ n.y ∧ n.y ≤ HIT_LINE_Y then
        ([], some { n with state := .hit, hit_time := some now }, none)
      else ([n], none, none) := by
  simp only [hitScan]
  rw [if_pos ⟨hl, ha⟩]
  split
  · rfl
  · rw [if_neg (by simp [ha])]

/-! ## Claim C1 -/

/-- Claim C1 (code bug): the spec says a press against an already-`Hit`
marker in the same lane and neighborhood is classified `Duplicate` with no
state change.  The source's "Duplicate hit" branch is dead code: it tests
`note.state == 'hit'` inside the `note.state == 'active'` branch, and hit
notes are removed from the list immediately, so the scan can never report
a duplicate (first conjunct).  Concretely (second conjunct): after a hit
in lane 2 resolves and removes the marker, a second press in lane 2 is
classified `incorrect`, resets the combo to 0 and increments the
incorrect-press counter — the state and counter changes the claim rules
out. -/
theorem C1_duplicate_outcome_dead_code :
    (∀ (lane : Fin 4) (now : ℚ) (ns : List Note), (hitScan lane now ns).2.2 = none) ∧
    ((handle_note_hit g0 2 100).hits = 1 ∧
     (handle_note_hit g0 2 100).notes = [] ∧
     (handle_note_hit (handle_note_hit g0 2 100) 2 101).combo = 0 ∧
     (handle_note_hit (handle_note_hit g0 2 100) 2 101).incorrect_hits = 1 ∧
     (handle_note_hit (handle_note_hit g0 2 100) 2 101).collector.session_data.map
        (fun e => e.hit_status) = [.hit, .incorrect]) := by
  refine ⟨hitScan_dup_none, ?_⟩
  norm_num [handle_note_hit, hitScan, g0, note480, mkNote, HIT_LINE_Y, NOTE_HEIGHT,
    WINDOW_HEIGHT, record_hit, mkEvent, dcInit]

/-! ## Claim C2 -/

/-- Claim C2: Scenario A — with the judgment line at `y = 500` and marker
height 40, pressing lane 2 while its marker sits at `verticalPosition =
480` yields outcome `Hit` with recorded reaction distance 20; and in
general, for a single active marker in the pressed lane, the press
resolves as a hit exactly when the marker's position lies within
`[HIT_LINE_Y - NOTE_HEIGHT, HIT_LINE_Y]`. -/
theorem C2_hit_window_scenario :
    ((handle_note_hit g0 2 100).hits = g0.hits + 1 ∧
     (handle_note_hit g0 2 100).collector.session_data.map
        (fun e => (e.hit_status, e.reaction_distance)) = [(.hit, some 20)]) ∧
    (∀ (g : GameState) (L : Fin 4) (now : ℚ) (n : Note),
      g.notes = [n] → n.lane = L → n.state = .active →
      ((handle_note_hit g L now).hits = g.hits + 1 ↔
        HIT_LINE_Y - NOTE_HEIGHT ≤ n.y ∧ n.y ≤ HIT_LINE_Y)) := by
  constructor
  · constructor
    · norm_num [handle_note_hit, hitScan, g0, note480, mkNote, HIT_LINE_Y, NOTE_HEIGHT,
        WINDOW_HEIGHT]
    · norm_num [handle_note_hit, hitScan, g0, note480, mkNote, HIT_LINE_Y, NOTE_HEIGHT,
        WINDOW_HEIGHT, record_hit, mkEvent, dcInit, computedReactionTime,
        computedReactionDistance, truthy, pyInt]
  · intro g L now n hg hl ha
    unfold handle_note_hit
    rw [hg, hitScan_single L now n hl ha]
    by_cases hw : HIT_LINE_Y - NOTE_HEIGHT ≤ n.y ∧ n.y ≤ HIT_LINE_Y
    · rw [if_pos hw]
      simpa using hw
    · rw [if_neg hw]
      simp only [iff_false_intro hw, iff_false]
      omega

/-- Witness for C2 at the Scenario A input. -/
theorem C2_hit_window_scenario_witness :
    g0.notes = [note480] ∧ note480.lane = 2 ∧ note480.state = .active ∧
    ((handle_note_hit g0 2 100).hits = g0.hits + 1 ↔
      HIT_LINE_Y - NOTE_HEIGHT ≤ note480.y ∧ note480.y ≤ HIT_LINE_Y) :=
  ⟨rfl, rfl, rfl, C2_hit_window_scenario.2 g0 2 100 note480 rfl rfl rfl⟩

/-! ## Claim C5 -/

/-- Counterexample to claim C5: the claim says selecting a level beyond
the declared count signals an error result rather than continuing with
previous settings.  With one declared level (speed 7), `set_level 5`
returns normally (`Except.ok`, modelling Python's silent `pass` branch)
and keeps the previous speed. -/
theorem C5_out_of_range_counterexample :
    set_level ⟨[⟨7, 0⟩], 1, 7, 0⟩ 5 = Except.ok ⟨[⟨7, 0⟩], 5, 7, 0⟩ := rfl

/-- Claim C5 as amended: for every level index beyond the declared count,
`set_level` succeeds silently, updating only `current_level` and keeping
the previous speed and acceleration. -/
theorem C5_out_of_range_keeps_settings (dm : DifficultyManager) (n : Nat)
    (h : dm.levels.length < n) :
    set_level dm n = Except.ok { dm with current_level := n } := by
  unfold set_level
  rw [if_neg (by simpa using Nat.not_le.mpr h)]

/-- Witness for the amended C5. -/
theorem C5_out_of_range_keeps_settings_witness :
    (⟨[⟨7, 0⟩], 1, 7, 0⟩ : DifficultyManager).levels.length < 5 ∧
    set_level ⟨[⟨7, 0⟩], 1, 7, 0⟩ 5 =
      Except.ok { (⟨[⟨7, 0⟩], 1, 7, 0⟩ : DifficultyManager) with current_level := 5 } :=
  ⟨by decide, C5_out_of_range_keeps_settings ⟨[⟨7, 0⟩], 1, 7, 0⟩ 5 (by decide)⟩

/-! ## Claim C6 -/

/-- Counterexample to claim C6: the claim says an invalid configuration
(e.g. an empty level list) makes session construction fail with an error.
Constructing the difficulty state with an empty level list succeeds,
leaving the defaults (level 1, speed 2.0, acceleration 0.0). -/
theorem C6_empty_levels_counterexample :
    init_difficulty [] = Except.ok ⟨[], 1, 2, 0⟩ := rfl

/-- Claim C6 as amended: session construction performs no configuration
validation — it succeeds for every level list, including the empty one
(lane count and level duration are fixed module constants, never
checked). -/
theorem C6_construction_never_fails (levels : List Level) :
    ∃ dm, init_difficulty levels = Except.ok dm := by
  cases levels with
  | nil => exact ⟨_, rfl⟩
  | cons l ls =>
    refine ⟨{ levels := l :: ls, current_level := 1, current_speed := l.speed,
              current_acceleration := l.acceleration }, ?_⟩
    simp [init_difficulty, set_levels, set_level, DifficultyManager.initial]

/-! ## Claim C3 -/

/-- Claim C3: when no active marker in lane `L` is inside the judgment
window, any number of presses in `L` each yield outcome `Incorrect`, never
mutate any marker, leave the combo at 0, and increment the incorrect-press
counter by exactly one per press (hits stay untouched). -/
theorem C3_incorrect_press_idempotent (g : GameState) (lane : Fin 4) (ts : List ℚ)
    (h : ∀ n ∈ g.notes, ¬ eligible lane n) :
    (pressMany g lane ts).notes = g.notes ∧
    (pressMany g lane ts).hits = g.hits ∧
    (pressMany g lane ts).incorrect_hits = g.incorrect_hits + ts.length ∧
    (ts ≠ [] → (pressMany g lane ts).combo = 0) ∧
    (pressMany g lane ts).collector.session_data.map (fun e => e.hit_status) =
      g.collector.session_data.map (fun e => e.hit_status) ++
        List.replicate ts.length .incorrect := by
  induction ts generalizing g with
  | nil => simp [pressMany]
  | cons t ts ih =>
    have hstep := handle_no_eligible g lane t h
    have hfold : pressMany g lane (t :: ts) = pressMany (handle_note_hit g lane t) lane ts := by
      simp [pressMany]
    have h' : ∀ n ∈ (handle_note_hit g lane t).notes, ¬ eligible lane n := by
      rw [hstep]; exact h
    obtain ⟨ihn, ihh, ihi, ihc, ihd⟩ := ih (handle_note_hit g lane t) h'
    refine ⟨?_, ?_, ?_, ?_, ?_⟩
    · rw [hfold, ihn, hstep]
    · rw [hfold, ihh, hstep]
    · rw [hfold, ihi, hstep]
      simp [Nat.add_assoc, Nat.add_comm 1 ts.length]
    · intro _
      rcases ts with _ | ⟨t', ts'⟩
      · simp [hfold, pressMany, hstep]
      · rw [hfold]; exact ihc (by simp)
    · rw [hfold, ihd, hstep]
      simp [record_hit, mkEvent, List.replicate_succ]

/-- Witness for C3: three presses in lane 0 with no markers at all. -/
theorem C3_incorrect_press_idempotent_witness :
    (∀ n ∈ gEmpty.notes, ¬ eligible 0 n) ∧
    (pressMany gEmpty 0 [1, 2, 3]).notes = gEmpty.notes ∧
    (pressMany gEmpty 0 [1, 2, 3]).incorrect_hits = gEmpty.incorrect_hits + 3 ∧
    (pressMany gEmpty 0 [1, 2, 3]).combo = 0 ∧
    (pressMany gEmpty 0 [1, 2, 3]).collector.session_data.map (fun e => e.hit_status) =
      gEmpty.collector.session_data.map (fun e => e.hit_status) ++
        List.replicate 3 .incorrect := by
  have hne : ∀ n ∈ gEmpty.notes, ¬ eligible (0 : Fin 4) n := by
    intro n hn
    simp [gEmpty, g0] at hn
  obtain ⟨h1, _, h3, h4, h5⟩ := C3_incorrect_press_idempotent gEmpty 0 [1, 2, 3] hne
  exact ⟨hne, h1, h3, h4 (by simp), h5⟩

/-! ## Claim C4 -/

/-- Counterexample to claim C4: the claim says the `Incorrect` event's
record carries a reaction-distance field equal to zero, not an absent one.
At the concrete input — a press in lane 0 at wall-clock 100 with no
markers — the single recorded event's `reaction_distance` is `none`
(Python `None`), because `int(reaction_distance) if reaction_distance else
None` tests the zero value for truthiness. -/
theorem C4_zero_distance_stored_absent_counterexample :
    (handle_note_hit gEmpty 0 100).collector.session_data.map
      (fun e => e.reaction_distance) = [none] ∧
    (none : Option Int) ≠ some 0 := by
  constructor
  · norm_num [handle_note_hit, hitScan, gEmpty, g0, mkNote, HIT_LINE_Y, NOTE_HEIGHT,
      WINDOW_HEIGHT, record_hit, mkEvent, dcInit, computedReactionTime,
      computedReactionDistance, truthy]
  · simp

/-- Claim C4 as amended: with no eligible marker, the press emits a
synthetic `Incorrect` record built from a dummy note positioned at the
judgment line; the computed reaction distance of that note is zero, but
the stored `reaction_distance` field is absent (`none`), because the
recording path tests the computed value for truthiness. -/
theorem C4_incorrect_record_synthetic_zero (g : GameState) (lane : Fin 4) (now : ℚ)
    (h : ∀ n ∈ g.notes, ¬ eligible lane n) (hn : now ≠ 0) :
    ({ mkNote lane g.current_speed HIT_LINE_Y with hit_time := some now } : Note).y
        = HIT_LINE_Y ∧
    computedReactionDistance
        { mkNote lane g.current_speed HIT_LINE_Y with hit_time := some now } = some 0 ∧
    (handle_note_hit g lane now).collector.session_data =
      g.collector.session_data ++
        [{ timestamp := pyInt ((now - g.collector.start_time) * 1000)
           level := g.current_level
           lane := lane
           hit_status := .incorrect
           reaction_time := none
           reaction_distance := none
           speed := round2 g.current_speed }] := by
  refine ⟨rfl, ?_, ?_⟩
  · simp [computedReactionDistance, truthy, hn, mkNote]
  · rw [handle_no_eligible g lane now h]
    simp [record_hit, mkEvent, computedReactionTime, computedReactionDistance, truthy,
      hn, mkNote]

/-- Witness for the amended C4. -/
theorem C4_incorrect_record_synthetic_zero_witness :
    (∀ n ∈ gEmpty.notes, ¬ eligible 0 n) ∧ (100 : ℚ) ≠ 0 ∧
    computedReactionDistance
        { mkNote 0 gEmpty.current_speed HIT_LINE_Y with hit_time := some 100 } = some 0 ∧
    (handle_note_hit gEmpty 0 100).collector.session_data =
      gEmpty.collector.session_data ++
        [{ timestamp := pyInt ((100 - gEmpty.collector.start_time) * 1000)
           level := gEmpty.current_level
           lane := 0
           hit_status := .incorrect
           reaction_time := none
           reaction_distance := none
           speed := round2 gEmpty.current_speed }] := by
  have hne : ∀ n ∈ gEmpty.notes, ¬ eligible (0 : Fin 4) n := by
    intro n hn
    simp [gEmpty, g0] at hn
  have h100 : (100 : ℚ) ≠ 0 := by norm_num
  obtain ⟨_, h2, h3⟩ := C4_incorrect_record_synthetic_zero gEmpty 0 100 hne h100
  exact ⟨hne, h100, h2, h3⟩

/-! ## Claim C7 -/

/-- Invariant carried along a clock trace whose last event time is `t`. -/
def clockInv (t : ℚ) (s : SessionClock) : Prop :=
  0 ≤ s.current_time ∧
  (match s.pause_start_time with
   | none => s.start_time + s.total_paused_time ≤ t
   | some p => s.start_time + s.total_paused_time ≤ p ∧ p ≤ t)

theorem clockInv_step {t : ℚ} {s : SessionClock} (hinv : clockInv t s)
    (e : ClockEvent) (he : t ≤ e.time) : clockInv e.time (clockStep s e) := by
  rcases e with w | w <;> rcases hps : s.pause_start_time with _ | p <;>
    simp only [clockInv, clockStep, hps, ClockEvent.time] at hinv he ⊢
  · exact ⟨by linarith [hinv.2], by linarith [hinv.2]⟩
  · exact ⟨hinv.1, hinv.2.1, by linarith [hinv.2.2]⟩
  · exact ⟨hinv.1, by linarith [hinv.2], le_refl w⟩
  · exact ⟨hinv.1, by linarith [hinv.2.1, hinv.2.2]⟩

theorem clockInv_run (tr : List ClockEvent) :
    ∀ (t : ℚ) (s : SessionClock), clockInv t s → wfTrace t tr →
      ∃ t', clockInv t' (clockRun s tr) := by
  induction tr with
  | nil => intro t s h _; exact ⟨t, h⟩
  | cons e es ih =>
    intro t s h hwf
    exact ih e.time (clockStep s e) (clockInv_step h e hwf.1) hwf.2

/-- Claim C7: (1) along any well-formed event trace from a fresh clock,
the effective elapsed time (`current_time = wall − start − paused`) stays
≥ 0; (2) it is monotone across non-paused ticks; (3) a pause at `t1`
followed by a resume at `t2` leaves the effective elapsed time read at
`t2` equal to the one read at `t1`, i.e. unchanged across the pause
interval. -/
theorem C7_session_clock_monotone :
    (∀ (w0 : ℚ) (tr : List ClockEvent), wfTrace w0 tr →
      0 ≤ (clockRun (clockInit w0) tr).current_time) ∧
    (∀ (s : SessionClock) (w1 w2 : ℚ), s.pause_start_time = none → w1 ≤ w2 →
      (clockStep s (.tick w1)).current_time ≤ (clockStep s (.tick w2)).current_time) ∧
    (∀ (s : SessionClock) (t1 t2 : ℚ), s.pause_start_time = none →
      (clockStep (clockStep (clockStep s (.toggle t1)) (.toggle t2)) (.tick t2)).current_time
        = (clockStep s (.tick t1)).current_time) := by
  refine ⟨?_, ?_, ?_⟩
  · intro w0 tr hwf
    have hinit : clockInv w0 (clockInit w0) := by
      simp [clockInv, clockInit]
    obtain ⟨t', h'⟩ := clockInv_run tr w0 (clockInit w0) hinit hwf
    exact h'.1
  · intro s w1 w2 hps hw
    simp only [clockStep, hps]
    linarith
  · intro s t1 t2 hps
    simp only [clockStep, hps]
    ring

/-- Witness for C7 on a concrete trace and concrete pause interval. -/
theorem C7_session_clock_monotone_witness :
    wfTrace 0 [ClockEvent.tick 1, ClockEvent.toggle 2, ClockEvent.toggle 3,
      ClockEvent.tick 4] ∧
    0 ≤ (clockRun (clockInit 0) [ClockEvent.tick 1, ClockEvent.toggle 2,
      ClockEvent.toggle 3, ClockEvent.tick 4]).current_time ∧
    (clockStep (clockInit 0) (.tick 1)).current_time ≤
      (clockStep (clockInit 0) (.tick 2)).current_time ∧
    (clockStep (clockStep (clockStep (clockInit 0) (.toggle 5)) (.toggle 9))
        (.tick 9)).current_time = (clockStep (clockInit 0) (.tick 5)).current_time := by
  have hwf : wfTrace 0 [ClockEvent.tick 1, ClockEvent.toggle 2, ClockEvent.toggle 3,
      ClockEvent.tick 4] := by
    simp only [wfTrace, ClockEvent.time]
    norm_num
  exact ⟨hwf, C7_session_clock_monotone.1 0 _ hwf,
    C7_session_clock_monotone.2.1 (clockInit 0) 1 2 rfl (by norm_num),
    C7_session_clock_monotone.2.2 (clockInit 0) 5 9 rfl⟩

/-! ## Claim C8 -/

/-- Claim C8: an `Active` marker transitions to `Missed` exactly at the
tick where its post-advance position first exceeds the judgment line
(first conjunct: transition with `miss_time = now`, combo reset to 0, one
`miss` event recorded and the note-total bumped; second conjunct: no
transition while the position stays at or below the line); and a `Missed`
marker is pruned from the active set exactly when more than 0.5 s have
passed since its resolution time (last conjunct). -/
theorem C8_missed_transition (n : Note) (now : ℚ) (level combo total : Nat)
    (dc : DataCollector) (ha : n.state = .active) :
    (HIT_LINE_Y < n.y + n.speed →
      tickNotes now level [n] combo total dc =
        ⟨[{ advance now n with state := .missed, miss_time := some now }], 0, total + 1,
          record_hit dc { advance now n with state := .missed, miss_time := some now }
            level .miss now⟩) ∧
    (n.y + n.speed ≤ HIT_LINE_Y →
      tickNotes now level [n] combo total dc = ⟨[advance now n], combo, total, dc⟩ ∧
      (advance now n).state = .active) ∧
    (∀ (m : Note) (mt : ℚ), m.state = .missed → m.miss_time = some mt →
      (0.5 < now - mt → tickNotes now level [m] combo total dc = ⟨[], combo, total, dc⟩) ∧
      (now - mt ≤ 0.5 → tickNotes now level [m] combo total dc = ⟨[m], combo, total, dc⟩)) := by
  refine ⟨?_, ?_, ?_⟩
  · intro h
    have hcond : (advance now n).y > HIT_LINE_Y ∧ (advance now n).state = .active := by
      rw [advance_y, advance_state]
      exact ⟨h, ha⟩
    simp only [tickNotes]
    rw [if_pos ha, if_pos hcond]
  · intro h
    have hcond : ¬ ((advance now n).y > HIT_LINE_Y ∧ (advance now n).state = .active) := by
      rw [advance_y]
      intro hc
      exact absurd hc.1 (not_lt.mpr h)
    refine ⟨?_, by rw [advance_state]; exact ha⟩
    simp only [tickNotes]
    rw [if_pos ha, if_neg hcond]
  · intro m mt hm hmt
    have hma : ¬ m.state = .active := by simp [hm]
    constructor
    · intro hlate
      simp only [tickNotes]
      rw [if_neg hma, if_pos hm]
      simp only [hmt]
      rw [if_pos hlate]
    · intro hearly
      simp only [tickNotes]
      rw [if_neg hma, if_pos hm]
      simp only [hmt]
      rw [if_neg (not_lt.mpr hearly)]

/-- Witness for C8: a marker at `y = 499` with speed 2 transitions to
`Missed` at this tick; a marker resolved at wall-clock 9 is pruned at 10
(more than 0.5 s later). -/
theorem C8_missed_transition_witness :
    note480.state = .active ∧
    HIT_LINE_Y < ({ note480 with y := 499 } : Note).y +
      ({ note480 with y := 499 } : Note).speed ∧
    tickNotes 10 1 [{ note480 with y := 499 }] 3 0 dcInit =
      ⟨[{ advance 10 { note480 with y := 499 } with
            state := .missed, miss_time := some 10 }], 0, 1,
        record_hit dcInit
          { advance 10 { note480 with y := 499 } with
              state := .missed, miss_time := some 10 } 1 .miss 10⟩ ∧
    tickNotes 10 1 [noteMissed] 3 0 dcInit = ⟨[], 3, 0, dcInit⟩ := by
  have ha : ({ note480 with y := 499 } : Note).state = .active := rfl
  have hy : HIT_LINE_Y < ({ note480 with y := 499 } : Note).y +
      ({ note480 with y := 499 } : Note).speed := by
    norm_num [note480, mkNote, HIT_LINE_Y, WINDOW_HEIGHT]
  refine ⟨rfl, hy, ?_, ?_⟩
  · exact (C8_missed_transition { note480 with y := 499 } 10 1 3 0 dcInit ha).1 hy
  · exact ((C8_missed_transition { note480 with y := 499 } 10 1 3 0 dcInit ha).2.2
      noteMissed 9 rfl rfl).1 (by norm_num)

/-! ## Claim C9 -/

/-- Hit/miss are distinct outcomes, so counting their disjunction splits. -/
theorem countP_status_or_split (data : List JudgmentEvent) :
    (data.countP fun d => decide (d.hit_status = .hit ∨ d.hit_status = .miss)) =
      (data.countP fun d => decide (d.hit_status = .hit)) +
      (data.countP fun d => decide (d.hit_status = .miss)) := by
  induction data with
  | nil => rfl
  | cons a t ih =>
    simp only [List.countP_cons]
    rw [ih]
    cases hs : a.hit_status <;> simp [hs] <;> omega

/-- Same split restricted to one lane. -/
theorem countP_lane_or_split (lane : Fin 4) (data : List JudgmentEvent) :
    (data.countP fun d =>
        decide (d.lane = lane ∧ (d.hit_status = .hit ∨ d.hit_status = .miss))) =
      (data.countP fun d => decide (d.lane = lane ∧ d.hit_status = .hit)) +
      (data.countP fun d => decide (d.lane = lane ∧ d.hit_status = .miss)) := by
  induction data with
  | nil => rfl
  | cons a t ih =>
    simp only [List.countP_cons]
    rw [ih]
    by_cases hl : a.lane = lane <;> cases hs : a.hit_status <;> simp [hl, hs] <;> omega

/-- The four lanes partition any status count. -/
theorem countP_lane_partition (p : JudgmentEvent → Prop) [DecidablePred p]
    (data : List JudgmentEvent) :
    (data.countP fun d => decide (p d)) =
      (data.countP fun d => decide (d.lane = (0 : Fin 4) ∧ p d)) +
      (data.countP fun d => decide (d.lane = (1 : Fin 4) ∧ p d)) +
      (data.countP fun d => decide (d.lane = (2 : Fin 4) ∧ p d)) +
      (data.countP fun d => decide (d.lane = (3 : Fin 4) ∧ p d)) := by
  induction data with
  | nil => rfl
  | cons a t ih =>
    simp only [List.countP_cons]
    rw [ih]
    obtain ⟨l, hl⟩ : ∃ l, a.lane = l := ⟨a.lane, rfl⟩
    by_cases hp : p a <;> fin_cases l <;> simp [hl, hp] <;> omega

/-- Claim C9: a buffer holding, in every one of the four lanes, exactly
`q ≥ 1` Hit events and `q` Miss events (i.e. `k = 4q` hits and `k` misses
evenly split across the lanes) summarizes to an overall hit rate of
exactly 1/2 and a per-lane hit rate of exactly 1/2 for every lane, and
`analyze_data` clears the per-level buffer afterwards. -/
theorem C9_even_split_half_rates (dc : DataCollector) (total_time : ℚ) (exited : Bool)
    (q : Nat) (hq : 1 ≤ q)
    (hh : ∀ lane : Fin 4,
      (dc.session_data.countP fun d => decide (d.lane = lane ∧ d.hit_status = .hit)) = q)
    (hm : ∀ lane : Fin 4,
      (dc.session_data.countP fun d => decide (d.lane = lane ∧ d.hit_status = .miss)) = q) :
    (analyze_data dc total_time exited).1.hit_rate = 1 / 2 ∧
    (∀ lane : Fin 4, (analyze_data dc total_time exited).1.lane_hit_rates lane = 1 / 2) ∧
    (analyze_data dc total_time exited).2.session_data = [] := by
  have hq0 : ((q : ℚ)) ≠ 0 := Nat.cast_ne_zero.mpr (by omega)
  have hTH : (dc.session_data.countP fun d => decide (d.hit_status = .hit)) = 4 * q := by
    rw [countP_lane_partition (fun d => d.hit_status = .hit), hh 0, hh 1, hh 2, hh 3]
    omega
  have hTM : (dc.session_data.countP fun d => decide (d.hit_status = .miss)) = 4 * q := by
    rw [countP_lane_partition (fun d => d.hit_status = .miss), hm 0, hm 1, hm 2, hm 3]
    omega
  have hTN : (dc.session_data.countP
      fun d => decide (d.hit_status = .hit ∨ d.hit_status = .miss)) = 8 * q := by
    rw [countP_status_or_split, hTH, hTM]
    omega
  refine ⟨?_, ?_, rfl⟩
  · simp only [analyze_data]
    rw [hTN, hTH, if_pos (by omega : 0 < 8 * q)]
    push_cast
    field_simp
    ring
  · intro lane
    have hLT : (dc.session_data.countP fun d =>
        decide (d.lane = lane ∧ (d.hit_status = .hit ∨ d.hit_status = .miss))) = 2 * q := by
      rw [countP_lane_or_split, hh lane, hm lane]
      omega
    simp only [analyze_data]
    rw [hLT, hh lane, if_pos (by omega : 0 < 2 * q)]
    push_cast
    field_simp
    ring

/-- An even buffer for the witness: one hit and one miss per lane. -/
def dcEven : DataCollector :=
  ⟨[⟨0, 1, 0, .hit, none, none, 2⟩, ⟨0, 1, 0, .miss, none, none, 2⟩,
    ⟨0, 1, 1, .hit, none, none, 2⟩, ⟨0, 1, 1, .miss, none, none, 2⟩,
    ⟨0, 1, 2, .hit, none, none, 2⟩, ⟨0, 1, 2, .miss, none, none, 2⟩,
    ⟨0, 1, 3, .hit, none, none, 2⟩, ⟨0, 1, 3, .miss, none, none, 2⟩], 0, 1⟩

/-- Witness for C9 at `q = 1` on the concrete even buffer. -/
theorem C9_even_split_half_rates_witness :
    (∀ lane : Fin 4,
      (dcEven.session_data.countP fun d => decide (d.lane = lane ∧ d.hit_status = .hit)) = 1) ∧
    (∀ lane : Fin 4,
      (dcEven.session_data.countP fun d => decide (d.lane = lane ∧ d.hit_status = .miss)) = 1) ∧
    (analyze_data dcEven 70 false).1.hit_rate = 1 / 2 ∧
    (∀ lane : Fin 4, (analyze_data dcEven 70 false).1.lane_hit_rates lane = 1 / 2) ∧
    (analyze_data dcEven 70 false).2.session_data = [] := by
  have hh : ∀ lane : Fin 4,
      (dcEven.session_data.countP fun d => decide (d.lane = lane ∧ d.hit_status = .hit)) = 1 := by
    decide
  have hm : ∀ lane : Fin 4,
      (dcEven.session_data.countP fun d => decide (d.lane = lane ∧ d.hit_status = .miss)) = 1 := by
    decide
  obtain ⟨h1, h2, h3⟩ := C9_even_split_half_rates dcEven 70 false 1 (le_refl 1) hh hm
  exact ⟨hh, hm, h1, h2, h3⟩

/-! ## Claim C10 -/

/-- Claim C10: a computed reaction time of exactly 0 is stored as absent
(`none`) in the recorded event, a computed reaction distance of exactly 0
likewise, and an event whose stored reaction time is absent contributes
nothing to the summary's overall reaction-time average (appending it
leaves the average unchanged) — the recording path tests the numeric value
for truthiness, not for presence. -/
theorem C10_zero_reaction_stored_absent :
    (∀ (dc : DataCollector) (note : Note) (level : Nat) (hs : HitStatus) (now : ℚ),
      computedReactionTime note = some 0 →
      (mkEvent dc note level hs now).reaction_time = none) ∧
    (∀ (dc : DataCollector) (note : Note) (level : Nat) (hs : HitStatus) (now : ℚ),
      computedReactionDistance note = some 0 →
      (mkEvent dc note level hs now).reaction_distance = none) ∧
    (∀ (dc : DataCollector) (t : ℚ) (ex : Bool) (ev : JudgmentEvent),
      ev.reaction_time = none →
      (analyze_data { dc with session_data := dc.session_data ++ [ev] } t ex).1.avg_reaction_time
        = (analyze_data dc t ex).1.avg_reaction_time) := by
  refine ⟨?_, ?_, ?_⟩
  · intro dc note level hs now h
    simp [mkEvent, h, truthy]
  · intro dc note level hs now h
    simp [mkEvent, h, truthy]
  · intro dc t ex ev hev
    simp only [analyze_data, reactionTimes, List.filterMap_append]
    rw [List.filterMap_cons, hev]
    simp

/-- A note whose computed reaction time and distance are both exactly 0:
hit at the judgment line at the same instant it became hittable. -/
def noteZero : Note :=
  { mkNote 0 2 HIT_LINE_Y with hit_time := some 5, start_hit_time := some 5 }

/-- Witness for C10 at the concrete zero-reaction note and a concrete
buffer extension. -/
theorem C10_zero_reaction_stored_absent_witness :
    computedReactionTime noteZero = some 0 ∧
    computedReactionDistance noteZero = some 0 ∧
    (mkEvent dcInit noteZero 1 .hit 5).reaction_time = none ∧
    (mkEvent dcInit noteZero 1 .hit 5).reaction_distance = none ∧
    (analyze_data { dcInit with
        session_data := dcInit.session_data ++ [mkEvent dcInit noteZero 1 .hit 5] }
      70 false).1.avg_reaction_time = (analyze_data dcInit 70 false).1.avg_reaction_time := by
  have hrt : computedReactionTime noteZero = some 0 := by
    simp [computedReactionTime, noteZero, mkNote, truthy]
  have hrd : computedReactionDistance noteZero = some 0 := by
    simp [computedReactionDistance, noteZero, mkNote, truthy]
  have h1 := C10_zero_reaction_stored_absent.1 dcInit noteZero 1 .hit 5 hrt
  have h2 := C10_zero_reaction_stored_absent.2.1 dcInit noteZero 1 .hit 5 hrd
  exact ⟨hrt, hrd, h1, h2,
    C10_zero_reaction_stored_absent.2.2 dcInit 70 false (mkEvent dcInit noteZero 1 .hit 5) h1⟩

end RhythmGame
